import Mathlib

/-!
Verification of the game-logic core of the level-99 trivia bot.

The Rust sources under verification are:
* src/src/game/mod.rs   — the community-level Game state machine;
* src/src/game/quizz.rs — the Quizz phase sub-machine (Cooldown / Question / Vote);
* src/src/game/pool.rs  — the per-community pool (not needed by any claim).

Modules referenced by those files but absent from the source tree
(team.rs, quiz/, definition.rs, settings.rs, output.rs) are modelled from
the specification; every such definition carries a doc comment starting
with `Modelled from the spec:`.

Conventions of the shallow embedding:
* Rust `Duration` values become `Nat` (an abstract count of time units);
* Rust `UserId` becomes `Nat`;
* Rust `HashSet<UserId>` becomes `Finset Nat`;
* fallible operations return `Except GameError Unit` alongside the updated
  state, so that mutations performed before an early `return Err(..)` stay
  observable, exactly as they do through the shared `TeamsHandle`;
* text sent through the output pipe is modelled as structured `OutMsg`
  values, one per `say`/`push` call site.
-/

set_option autoImplicit false

namespace Level99

/-- Modelled from the spec: the quiz definition module is not under src/.
A question carries a prompt, an accepted answer and scoring metadata. -/
structure Question where
  prompt : String
  answer : String
  score_value : Int
deriving DecidableEq

/-- Modelled from the spec: `QuizDefinition` (definition.rs is not under
src/) is an ordered sequence of questions loaded at quiz start. -/
structure QuizDefinition where
  questions : List Question
deriving DecidableEq

/-- Modelled from the spec: definition.rs is not under src/. -/
def QuizDefinition.get_questions (d : QuizDefinition) : List Question :=
  d.questions

/-- Modelled from the spec: settings.rs is not under src/.  Settings hold
the cooldown duration, the per-question time budget and scoring data. -/
structure Settings where
  cooldown_duration : Nat
  question_duration : Nat
  results_duration : Nat
deriving DecidableEq

/-- Modelled from the spec: the concrete default values are arbitrary;
no theorem below depends on them. -/
def Settings.default : Settings :=
  { cooldown_duration := 10, question_duration := 30, results_duration := 10 }

/-- Structured stand-in for each text sent through the output pipe: one
constructor per `say`/`push` call site of the Rust sources. -/
inductive OutMsg where
  | text (s : String)
  | scoreUpdated (display_name : String) (new_score : Int)
  | teamsReset
  | scoresReset
  | gamePaused
  | gameResumed
  | quizStarted
deriving DecidableEq

/-- The typed failure kinds of the spec.  The Rust code reports errors as
anyhow messages; each `Err` site of the sources maps to one constructor. -/
inductive GameError where
  | invalidName
  | notFound
  | notOnTeam
  | wrongPhase
  | teamLocked
  | loadError
deriving DecidableEq

/-- Modelled from the spec: team.rs is not under src/.  A team has a
name-based id, a score and a set of players. -/
structure Team where
  id : String
  score : Int
  players : Finset Nat
deriving DecidableEq

/-- Modelled from the spec: team.rs is not under src/.  A fresh team has
no players and a zero score. -/
def Team.new (id : String) : Team :=
  { id := id, score := 0, players := ∅ }

/-- Modelled from the spec: team.rs is not under src/.  The display name
is the (sanitized) team name carried by the id. -/
def Team.get_display_name (t : Team) : String :=
  t.id

/-- Trims surrounding whitespace and normalizes case, over the character
list of the string. -/
def normalize_chars (s : String) : List Char :=
  let cs := s.data.dropWhile Char.isWhitespace
  let cs := (cs.reverse.dropWhile Char.isWhitespace).reverse
  cs.map Char.toLower

/-- Modelled from the spec: team.rs is not under src/.  `sanitize_name`
trims whitespace, normalizes case and rejects an empty result. -/
def sanitize_name (s : String) : Option String :=
  let cs := normalize_chars s
  if cs.isEmpty then none else some (String.mk cs)

/-- Rewrites the first element satisfying `pred`, mirroring the Rust
idiom `iter_mut().find(..)` followed by a mutation of the found element. -/
def updateFirst (pred : Team → Bool) (f : Team → Team) : List Team → List Team
  | [] => []
  | t :: ts => if pred t then f t :: ts else t :: updateFirst pred f ts

/-- `Vec::swap_remove`: moves the last element into slot `i` and pops. -/
def swapRemove (l : List Team) (i : Nat) : List Team :=
  match l.getLast? with
  | none => l
  | some last => (l.set i last).dropLast

/-! ### The Quizz phase machine of src/src/game/quizz.rs -/

/-- CooldownStep from quizz.rs: accumulated elapsed time and the time to
wait before the step is over. -/
structure CooldownStep where
  time_elapsed : Nat
  time_to_wait : Nat
deriving DecidableEq

/-- CooldownStep::new. -/
def CooldownStep.new (duration : Nat) : CooldownStep :=
  { time_elapsed := 0, time_to_wait := duration }

/-- CooldownStep::tick. -/
def CooldownStep.tick (c : CooldownStep) (dt : Nat) : CooldownStep :=
  { c with time_elapsed := c.time_elapsed + dt }

/-- CooldownStep::is_over: `time_elapsed >= time_to_wait`. -/
def CooldownStep.is_over (c : CooldownStep) : Bool :=
  c.time_to_wait ≤ c.time_elapsed

/-- QuizzStep from quizz.rs. -/
inductive QuizzStep where
  | Cooldown (c : CooldownStep)
  | Vote
  | Question
deriving DecidableEq

/-- Quizz from quizz.rs: settings, remaining questions, current step. -/
structure Quizz where
  settings : Settings
  remaining_questions : List Question
  current_step : QuizzStep
deriving DecidableEq

/-- Quizz::new. -/
def Quizz.new (definition : QuizDefinition) : Quizz :=
  let settings := Settings.default
  { remaining_questions := definition.get_questions
    current_step := QuizzStep.Cooldown (CooldownStep.new settings.cooldown_duration)
    settings := settings }

/-- Quizz::tick from quizz.rs, returning the updated quizz together with
what was pushed through the output pipe.  In the Cooldown step the
cooldown state accumulates `dt`; once over, the step becomes Question and
a fixed announcement is pushed.  Every other step ignores the tick. -/
def Quizz.tick (q : Quizz) (dt : Nat) : Quizz × List OutMsg :=
  match q.current_step with
  | QuizzStep.Cooldown cooldown_state =>
    let cooldown_state := cooldown_state.tick dt
    if cooldown_state.is_over then
      ({ q with current_step := QuizzStep.Question },
        [OutMsg.text "Time for a question!"])
    else
      ({ q with current_step := QuizzStep.Cooldown cooldown_state }, [])
  | _ => (q, [])

/-! ### The Quiz engine used by Game (quiz/ module, modelled from the spec) -/

/-- Modelled from the spec: the quiz/ module is not under src/.  The
quiz-level phase; the modelled policy cycles cooldown → question →
results, the ordering given as the example in the spec (vote and wager
are configured sub-phases the spec leaves as policy and no claim uses). -/
inductive QuizPhase where
  | cooldown (elapsed : Nat)
  | question (elapsed : Nat)
  | results (elapsed : Nat)
deriving DecidableEq

/-- Modelled from the spec: the quiz/ module is not under src/.  A quiz
holds the remaining question queue, the question in play, the phase,
settings, and the teams that already scored on the current question. -/
structure Quiz where
  remaining_questions : List Question
  current_question : Option Question
  phase : QuizPhase
  settings : Settings
  guessed_teams : List String
deriving DecidableEq

/-- Modelled from the spec: quiz creation moves immediately from Startup
to Cooldown. -/
def Quiz.new (definition : QuizDefinition) : Quiz :=
  { remaining_questions := definition.get_questions
    current_question := none
    phase := QuizPhase.cooldown 0
    settings := Settings.default
    guessed_teams := [] }

/-- Modelled from the spec: forced transition to the next scheduled
phase.  Cooldown pops the next question and announces its prompt (or
parks in results when the queue is empty); question reveals results; a
finished results phase starts the next cooldown, or stays terminal once
the queue is exhausted. -/
def Quiz.advance (q : Quiz) : Quiz × List OutMsg :=
  match q.phase with
  | QuizPhase.cooldown _ =>
    match q.remaining_questions with
    | [] => ({ q with current_question := none, phase := QuizPhase.results 0 }, [])
    | qu :: rest =>
      ({ q with remaining_questions := rest
                current_question := some qu
                phase := QuizPhase.question 0
                guessed_teams := [] },
        [OutMsg.text qu.prompt])
  | QuizPhase.question _ => ({ q with phase := QuizPhase.results 0 }, [])
  | QuizPhase.results _ =>
    match q.remaining_questions with
    | [] => ({ q with current_question := none }, [])
    | _ => ({ q with current_question := none, phase := QuizPhase.cooldown 0 }, [])

/-- Modelled from the spec: tick accumulates the elapsed duration of the
current phase and performs the scheduled transition on expiry; it is a
pure function of the current state and `dt`. -/
def Quiz.tick (q : Quiz) (dt : Nat) : Quiz × List OutMsg :=
  match q.phase with
  | QuizPhase.cooldown e =>
    let e := e + dt
    if q.settings.cooldown_duration ≤ e then
      Quiz.advance { q with phase := QuizPhase.cooldown e }
    else ({ q with phase := QuizPhase.cooldown e }, [])
  | QuizPhase.question e =>
    let e := e + dt
    if q.settings.question_duration ≤ e then
      Quiz.advance { q with phase := QuizPhase.question e }
    else ({ q with phase := QuizPhase.question e }, [])
  | QuizPhase.results e =>
    let e := e + dt
    if q.settings.results_duration ≤ e then
      Quiz.advance { q with phase := QuizPhase.results e }
    else ({ q with phase := QuizPhase.results e }, [])

/-- Modelled from the spec: moderator override of the timers. -/
def Quiz.skip_phase (q : Quiz) : Quiz × List OutMsg :=
  Quiz.advance q

/-- Modelled from the spec: the quiz is over exactly when the queue is
empty and the terminal results step of the last question was reached. -/
def Quiz.is_over (q : Quiz) : Bool :=
  q.remaining_questions.isEmpty && q.current_question.isNone &&
    (match q.phase with | QuizPhase.results _ => true | _ => false)

/-- Modelled from the spec: guess normalization is the same
case/whitespace normalization used for comparisons. -/
def sanitize_guess (s : String) : String :=
  String.mk (normalize_chars s)

/-- Modelled from the spec: guesses are accepted only in the question
phase; the first correct guess of a team scores once and is announced,
repeats for the same question are ignored. -/
def Quiz.guess (q : Quiz) (team_id : String) (text : String)
    (teams : List Team) :
    Quiz × List Team × List OutMsg × Except GameError Unit :=
  match q.phase, q.current_question with
  | QuizPhase.question _, some qu =>
    if sanitize_guess text == sanitize_guess qu.answer then
      if team_id ∈ q.guessed_teams then (q, teams, [], Except.ok ())
      else
        let teams := updateFirst (fun t => t.id == team_id)
          (fun t => { t with score := t.score + qu.score_value }) teams
        ({ q with guessed_teams := team_id :: q.guessed_teams },
          teams, [OutMsg.scoreUpdated team_id qu.score_value], Except.ok ())
    else (q, teams, [], Except.ok ())
  | _, _ => (q, teams, [], Except.error GameError.wrongPhase)

/-- Modelled from the spec: the quiz definition source is a resource that
either fails to load (missing or malformed: `none`) or parses into an
ordered sequence of questions (`some qs`). -/
def QuizDefinition.open (source : Option (List Question)) :
    Except GameError QuizDefinition :=
  match source with
  | none => Except.error GameError.loadError
  | some qs => Except.ok { questions := qs }

/-! ### The Game state machine of src/src/game/mod.rs -/

/-- Phase from mod.rs. -/
inductive Phase where
  | Startup
  | Setup
  | Quiz (q : Quiz)
deriving DecidableEq

/-- Whether the game-level phase is the quiz phase. -/
def Phase.isQuiz : Phase → Bool
  | Phase.Quiz _ => true
  | _ => false

/-- Whether the game-level phase is the setup phase (the match at the
top of Game::join_team). -/
def Phase.isSetup : Phase → Bool
  | Phase.Setup => true
  | _ => false

/-- Game from mod.rs: current phase, team registry, paused flag.  The
output pipe is replaced by returning the sent messages from each
operation. -/
structure Game where
  current_phase : Phase
  teams : List Team
  paused : Bool
deriving DecidableEq

deriving instance DecidableEq for Except

/-- Result of one Game operation: the updated game, the messages sent
through the output pipe during the call, and the returned Result. -/
structure OpResult where
  game : Game
  sent : List OutMsg
  res : Except GameError Unit
deriving DecidableEq

/-- Game::new: starts in Startup and immediately replaces it by Setup. -/
def Game.new (teams : List Team) : Game :=
  let g : Game := { current_phase := Phase.Startup, teams := teams, paused := false }
  { g with current_phase := Phase.Setup }

/-- Game::get_player_team: id of the first team containing the player. -/
def Game.get_player_team (g : Game) (player : Nat) : Option String :=
  (g.teams.find? (fun t => decide (player ∈ t.players))).map (fun t => t.id)

/-- Game::get_teams. -/
def Game.get_teams (g : Game) : List Team :=
  g.teams

/-- Game::tick: no-op while paused; in Startup and Setup nothing happens;
in the Quiz phase the quiz ticks and, if it reports being over, the
phase falls back to Setup. -/
def Game.tick (g : Game) (dt : Nat) : OpResult :=
  if g.paused then { game := g, sent := [], res := Except.ok () }
  else
    match g.current_phase with
    | Phase.Startup => { game := g, sent := [], res := Except.ok () }
    | Phase.Setup => { game := g, sent := [], res := Except.ok () }
    | Phase.Quiz quiz =>
      let ticked := Quiz.tick quiz dt
      if ticked.1.is_over then
        { game := { g with current_phase := Phase.Setup }, sent := ticked.2, res := Except.ok () }
      else
        { game := { g with current_phase := Phase.Quiz ticked.1 }, sent := ticked.2, res := Except.ok () }

/-- Game::begin: only legal in Setup; loads the definition (propagating
a load failure before any mutation) and enters the Quiz phase. -/
def Game.begin (g : Game) (quiz_path : Option (List Question)) : OpResult :=
  match g.current_phase with
  | Phase.Setup =>
    match QuizDefinition.open quiz_path with
    | Except.error e => { game := g, sent := [], res := Except.error e }
    | Except.ok definition =>
      { game := { g with current_phase := Phase.Quiz (Quiz.new definition) }
        sent := [OutMsg.quizStarted]
        res := Except.ok () }
  | _ => { game := g, sent := [], res := Except.error GameError.wrongPhase }

/-- Game::skip: delegates to the quiz; fails when no quiz runs. -/
def Game.skip (g : Game) : OpResult :=
  match g.current_phase with
  | Phase.Quiz q =>
    let skipped := Quiz.skip_phase q
    { game := { g with current_phase := Phase.Quiz skipped.1 }
      sent := skipped.2
      res := Except.ok () }
  | _ => { game := g, sent := [], res := Except.error GameError.wrongPhase }

/-- Game::guess: resolves the player team first (failing with the
not-on-team error), then requires the Quiz phase, then delegates. -/
def Game.guess (g : Game) (player : Nat) (text : String) : OpResult :=
  match g.get_player_team player with
  | none => { game := g, sent := [], res := Except.error GameError.notOnTeam }
  | some team_id =>
    match g.current_phase with
    | Phase.Quiz quiz =>
      match Quiz.guess quiz team_id text g.teams with
      | (quiz2, teams2, out, r) =>
        { game := { g with current_phase := Phase.Quiz quiz2, teams := teams2 }
          sent := out
          res := r }
    | _ => { game := g, sent := [], res := Except.error GameError.wrongPhase }

/-- Game::disband_team: sanitize, find the team position, swap-remove. -/
def Game.disband_team (g : Game) (team_name : String) : OpResult :=
  match sanitize_name team_name with
  | none => { game := g, sent := [], res := Except.error GameError.invalidName }
  | some name =>
    match g.teams.findIdx? (fun t => t.id == name) with
    | none => { game := g, sent := [], res := Except.error GameError.notFound }
    | some index =>
      { game := { g with teams := swapRemove g.teams index }
        sent := []
        res := Except.ok () }

/-- The find-or-create step of Game::join_team: insert the player into
the first team with the given id, or push a fresh team holding them. -/
def addPlayerToTeam (teams : List Team) (team_id : String) (player : Nat) :
    List Team :=
  if teams.any (fun t => t.id == team_id) then
    updateFirst (fun t => t.id == team_id)
      (fun t => { t with players := insert player t.players }) teams
  else
    teams ++ [{ Team.new team_id with
                  players := insert player (Team.new team_id).players }]

/-- Game::join_team, in source order: the mid-quiz guard, then removal of
the player from every team, then name sanitization (whose failure
returns early with the removal already applied and the empty-team
pruning not yet run), then find-or-create plus insert, then pruning. -/
def Game.join_team (g : Game) (player : Nat) (team_name : String) : OpResult :=
  let is_setup_phase := g.current_phase.isSetup
  let is_player_on_team := (g.get_player_team player).isSome
  if is_player_on_team && !is_setup_phase then
    { game := g, sent := [], res := Except.error GameError.teamLocked }
  else
    let erased := g.teams.map (fun t => { t with players := t.players.erase player })
    match sanitize_name team_name with
    | none =>
      { game := { g with teams := erased }, sent := [], res := Except.error GameError.invalidName }
    | some name =>
      let retained := (addPlayerToTeam erased name player).filter
        (fun t => decide (t.players ≠ ∅))
      { game := { g with teams := retained }
        sent := []
        res := Except.ok () }

/-- Game::adjust_score: find the team (not-found error otherwise), add
the delta, and broadcast the display name with the new score. -/
def Game.adjust_score (g : Game) (team_id : String) (delta : Int) : OpResult :=
  match g.teams.find? (fun t => t.id == team_id) with
  | none => { game := g, sent := [], res := Except.error GameError.notFound }
  | some t =>
    let adjusted := updateFirst (fun u => u.id == team_id)
      (fun u => { u with score := u.score + delta }) g.teams
    { game := { g with teams := adjusted }
      sent := [OutMsg.scoreUpdated t.get_display_name (t.score + delta)]
      res := Except.ok () }

/-- Game::reset_teams. -/
def Game.reset_teams (g : Game) : OpResult :=
  { game := { g with teams := [] }, sent := [OutMsg.teamsReset], res := Except.ok () }

/-- Game::reset_scores. -/
def Game.reset_scores (g : Game) : OpResult :=
  { game := { g with teams := g.teams.map (fun t => { t with score := 0 }) }
    sent := [OutMsg.scoresReset]
    res := Except.ok () }

/-- Game::pause: only acts when not already paused. -/
def Game.pause (g : Game) : OpResult :=
  if !g.paused then
    { game := { g with paused := true }, sent := [OutMsg.gamePaused], res := Except.ok () }
  else { game := g, sent := [], res := Except.ok () }

/-- Game::unpause: only acts when paused. -/
def Game.unpause (g : Game) : OpResult :=
  if g.paused then
    { game := { g with paused := false }, sent := [OutMsg.gameResumed], res := Except.ok () }
  else { game := g, sent := [], res := Except.ok () }

/-! ### Helper lemmas -/

/-- Rewriting the first match inside an explicit decomposition. -/
lemma updateFirst_append (pred : Team → Bool) (f : Team → Team)
    (pre : List Team) (u : Team) (post : List Team)
    (hpre : ∀ v ∈ pre, pred v = false) (hu : pred u = true) :
    updateFirst pred f (pre ++ u :: post) = pre ++ f u :: post := by
  induction pre with
  | nil => simp [updateFirst, hu]
  | cons a as ih =>
    have ha : pred a = false := hpre a (by simp)
    simp only [List.cons_append, updateFirst, ha, Bool.false_eq_true, if_false,
      List.cons.injEq, true_and]
    exact ih (fun v hv => hpre v (by simp [hv]))

/-- A list whose `any` holds splits at the first element satisfying the
predicate. -/
lemma any_first_decomp (pred : Team → Bool) (l : List Team)
    (h : l.any pred = true) :
    ∃ pre u post, l = pre ++ u :: post ∧
      (∀ v ∈ pre, pred v = false) ∧ pred u = true := by
  induction l with
  | nil => simp at h
  | cons a as ih =>
    by_cases hp : pred a = true
    · exact ⟨[], a, as, rfl, by simp, hp⟩
    · have hp' : pred a = false := by revert hp; cases pred a <;> simp
      have h' : as.any pred = true := by simpa [List.any_cons, hp'] using h
      obtain ⟨pre, u, post, he, hpre, hu⟩ := ih h'
      refine ⟨a :: pre, u, post, by simp [he], ?_, hu⟩
      intro v hv
      rcases List.mem_cons.mp hv with rfl | hv
      · exact hp'
      · exact hpre v hv

/-- The first element returned by `find?` splits the list. -/
lemma find?_first_decomp (pred : Team → Bool) (l : List Team) (u : Team)
    (h : l.find? pred = some u) :
    ∃ pre post, l = pre ++ u :: post ∧ (∀ v ∈ pre, pred v = false) ∧
      pred u = true := by
  induction l with
  | nil => simp at h
  | cons a as ih =>
    by_cases hp : pred a = true
    · rw [List.find?_cons_of_pos _ hp] at h
      have hau : a = u := by simpa using h
      subst hau
      exact ⟨[], as, rfl, by simp, hp⟩
    · have hp' : pred a = false := by revert hp; cases pred a <;> simp
      rw [List.find?_cons_of_neg _ (by simp [hp'])] at h
      obtain ⟨pre, post, he, hpre, hu⟩ := ih h
      refine ⟨a :: pre, post, by simp [he], ?_, hu⟩
      intro v hv
      rcases List.mem_cons.mp hv with rfl | hv
      · exact hp'
      · exact hpre v hv

/-- Erasing a player who is on none of the teams changes nothing. -/
lemma map_erase_id (p : Nat) (m : List Team)
    (h : ∀ v ∈ m, p ∉ v.players) :
    m.map (fun t => { t with players := t.players.erase p }) = m := by
  induction m with
  | nil => rfl
  | cons a as ih =>
    have ha : a.players.erase p = a.players :=
      Finset.erase_eq_of_not_mem (h a (by simp))
    simp only [List.map_cons, ha, List.cons.injEq]
    exact ⟨trivial, ih (fun v hv => h v (by simp [hv]))⟩

/-! ### Claim C1 -/

/-- Sample quizz used to evaluate the Quizz machine at concrete inputs:
one pending question, in the Cooldown step with 5 units left. -/
def c1quizz : Quizz :=
  { settings := Settings.default
    remaining_questions := [{ prompt := "P", answer := "A", score_value := 100 }]
    current_step := QuizzStep.Cooldown { time_elapsed := 0, time_to_wait := 5 } }

/-- Claim C1, counterexample: at an input whose cooldown expires on the
tick, the step does transition to Question, but the remaining question
queue is unchanged (nothing is popped: its length stays 1), and the
announcement is the fixed text, not the prompt of the next question. -/
theorem claim1_counterexample :
    (Quizz.tick c1quizz 5).1.current_step = QuizzStep.Question ∧
    (Quizz.tick c1quizz 5).1.remaining_questions = c1quizz.remaining_questions ∧
    c1quizz.remaining_questions.length = 1 ∧
    (Quizz.tick c1quizz 5).2 = [OutMsg.text "Time for a question!"] ∧
    (Quizz.tick c1quizz 5).2 ≠ [OutMsg.text "P"] := by decide

/-- Claim C1 (amended): in the Cooldown step, once the accumulated
elapsed time after adding dt reaches the configured wait, tick moves the
step to Question and pushes the fixed announcement, leaving the question
queue unchanged; below the wait it stays in Cooldown with the
accumulated time, pushes nothing, and leaves the queue unchanged. -/
theorem claim1_cooldown_tick (q : Quizz) (c : CooldownStep) (dt : Nat)
    (hc : q.current_step = QuizzStep.Cooldown c) :
    (c.time_to_wait ≤ c.time_elapsed + dt →
      Quizz.tick q dt =
        ({ q with current_step := QuizzStep.Question },
          [OutMsg.text "Time for a question!"])) ∧
    (c.time_elapsed + dt < c.time_to_wait →
      Quizz.tick q dt =
        ({ q with current_step := QuizzStep.Cooldown ⟨c.time_elapsed + dt, c.time_to_wait⟩ },
          [])) := by
  constructor
  · intro h
    simp [Quizz.tick, hc, CooldownStep.tick, CooldownStep.is_over, h]
  · intro h
    simp [Quizz.tick, hc, CooldownStep.tick, CooldownStep.is_over, Nat.not_le.mpr h]

/-- Claim C1, witness: the amended theorem evaluated on `c1quizz` with a
tick that makes the cooldown expire exactly. -/
theorem claim1_witness :
    Quizz.tick c1quizz 5 =
      ({ c1quizz with current_step := QuizzStep.Question },
        [OutMsg.text "Time for a question!"]) :=
  (claim1_cooldown_tick c1quizz { time_elapsed := 0, time_to_wait := 5 } 5 rfl).1
    (by decide)

/-! ### Claim C10 -/

/-- Claim C10: in the Question and Vote steps a tick changes nothing at
all (so no sequence of ticks ever leaves them), and in every step the
remaining question queue is untouched by tick. -/
theorem claim10_tick_stable (q : Quizz) (dt : Nat) :
    ((q.current_step = QuizzStep.Question ∨ q.current_step = QuizzStep.Vote) →
      Quizz.tick q dt = (q, [])) ∧
    (Quizz.tick q dt).1.remaining_questions = q.remaining_questions := by
  cases q with
  | mk settings remaining step =>
    cases step with
    | Cooldown c =>
      refine ⟨?_, ?_⟩
      · rintro (h | h) <;> simp at h
      · simp only [Quizz.tick]
        split <;> rfl
    | Vote => exact ⟨fun _ => rfl, rfl⟩
    | Question => exact ⟨fun _ => rfl, rfl⟩

/-- Sample quizz in the Question step. -/
def c10quizz : Quizz :=
  { settings := Settings.default
    remaining_questions := [{ prompt := "P", answer := "A", score_value := 100 }]
    current_step := QuizzStep.Question }

/-- Claim C10, witness: a tick on a quizz sitting in the Question step. -/
theorem claim10_witness : Quizz.tick c10quizz 7 = (c10quizz, []) :=
  (claim10_tick_stable c10quizz 7).1 (Or.inl rfl)

/-! ### Claim C7 -/

/-- Claim C7: while paused, tick changes nothing whatever the phase and
dt; unpaused in Startup or Setup it changes nothing; unpaused in the
Quiz phase it delegates to the quiz tick and falls back to Setup exactly
when the ticked quiz reports being over, keeping the ticked quiz
otherwise. -/
theorem claim7_tick (g : Game) (dt : Nat) :
    (g.paused = true →
      Game.tick g dt = { game := g, sent := [], res := Except.ok () }) ∧
    (g.paused = false → g.current_phase = Phase.Startup →
      Game.tick g dt = { game := g, sent := [], res := Except.ok () }) ∧
    (g.paused = false → g.current_phase = Phase.Setup →
      Game.tick g dt = { game := g, sent := [], res := Except.ok () }) ∧
    (g.paused = false → ∀ q, g.current_phase = Phase.Quiz q →
      Game.tick g dt =
        if (Quiz.tick q dt).1.is_over then
          { game := { g with current_phase := Phase.Setup }
            sent := (Quiz.tick q dt).2, res := Except.ok () }
        else
          { game := { g with current_phase := Phase.Quiz (Quiz.tick q dt).1 }
            sent := (Quiz.tick q dt).2, res := Except.ok () }) := by
  refine ⟨?_, ?_, ?_, ?_⟩
  · intro hp; simp [Game.tick, hp]
  · intro hp hph; simp [Game.tick, hp, hph]
  · intro hp hph; simp [Game.tick, hp, hph]
  · intro hp q hph
    cases h : (Quiz.tick q dt).1.is_over <;>
      simp [Game.tick, hp, hph, h]

/-- Paused game used to evaluate tick at a concrete input. -/
def c7paused : Game :=
  { current_phase := Phase.Setup, teams := [], paused := true }

/-- Claim C7, witness: a tick on a paused game is a complete no-op. -/
theorem claim7_witness :
    Game.tick c7paused 3 = { game := c7paused, sent := [], res := Except.ok () } :=
  (claim7_tick c7paused 3).1 rfl

/-! ### Claim C8 -/

/-- Claim C8, counterexample: in the legal call sequence pause, pause,
pause on a fresh game, the second and third calls are two consecutive
pause calls, and together they emit no notification, not exactly one. -/
theorem claim8_counterexample :
    (Game.pause (Game.pause (Game.new [])).game).sent.length +
      (Game.pause (Game.pause (Game.pause (Game.new [])).game).game).sent.length
      ≠ 1 := by decide

/-- Claim C8 (amended): pause sets the flag and emits the paused
notification exactly when the game was not already paused, in which case
an immediately following pause emits nothing, so the two consecutive
calls emit exactly one notification in total; pause on a paused game
changes nothing and emits nothing; unpause clears the flag and emits the
resumed notification exactly when paused, and on an unpaused game emits
none and changes no state. -/
theorem claim8_pause_unpause (g : Game) :
    (g.paused = false →
      Game.pause g =
        { game := { g with paused := true }, sent := [OutMsg.gamePaused]
          res := Except.ok () } ∧
      (Game.pause (Game.pause g).game).sent = [] ∧
      (Game.pause g).sent.length + (Game.pause (Game.pause g).game).sent.length = 1) ∧
    (g.paused = true →
      Game.pause g = { game := g, sent := [], res := Except.ok () }) ∧
    (g.paused = true →
      Game.unpause g =
        { game := { g with paused := false }, sent := [OutMsg.gameResumed]
          res := Except.ok () }) ∧
    (g.paused = false →
      Game.unpause g = { game := g, sent := [], res := Except.ok () }) := by
  refine ⟨?_, ?_, ?_, ?_⟩ <;> intro hp <;>
    simp [Game.pause, Game.unpause, hp]

/-- Claim C8, witness: the amended theorem evaluated on a fresh
(unpaused) game. -/
theorem claim8_witness :
    Game.pause (Game.new []) =
      { game := { Game.new [] with paused := true }, sent := [OutMsg.gamePaused]
        res := Except.ok () } ∧
    (Game.pause (Game.pause (Game.new [])).game).sent = [] ∧
    (Game.pause (Game.new [])).sent.length +
      (Game.pause (Game.pause (Game.new [])).game).sent.length = 1 :=
  (claim8_pause_unpause (Game.new [])).1 rfl

/-! ### Claim C2 -/

/-- Claim C2: begin fails with the wrong-phase error and changes nothing
whenever the phase is not Setup (in particular while a quiz runs); in
Setup with a failing source it fails with the load error and changes
nothing; in Setup with a loadable source it moves the phase to Quiz and
leaves teams and the paused flag unchanged. -/
theorem claim2_begin (g : Game) (source : Option (List Question)) :
    ((∃ q, g.current_phase = Phase.Quiz q) →
      Game.begin g source =
        { game := g, sent := [], res := Except.error GameError.wrongPhase }) ∧
    (g.current_phase ≠ Phase.Setup →
      Game.begin g source =
        { game := g, sent := [], res := Except.error GameError.wrongPhase }) ∧
    (g.current_phase = Phase.Setup → source = none →
      Game.begin g source =
        { game := g, sent := [], res := Except.error GameError.loadError }) ∧
    (g.current_phase = Phase.Setup → ∀ qs, source = some qs →
      Game.begin g source =
        { game := { g with current_phase := Phase.Quiz (Quiz.new ⟨qs⟩) }
          sent := [OutMsg.quizStarted]
          res := Except.ok () }) := by
  refine ⟨?_, ?_, ?_, ?_⟩
  · rintro ⟨q, hph⟩
    simp [Game.begin, hph]
  · intro hph
    cases h : g.current_phase with
    | Startup => simp [Game.begin, h]
    | Setup => exact absurd h hph
    | Quiz q => simp [Game.begin, h]
  · intro hph hs
    simp [Game.begin, hph, hs, QuizDefinition.open]
  · intro hph qs hs
    simp [Game.begin, hph, hs, QuizDefinition.open]

/-- Game sitting in the Quiz phase with an empty quiz, used to evaluate
begin at a concrete input. -/
def c2quizGame : Game :=
  { current_phase := Phase.Quiz (Quiz.new ⟨[]⟩), teams := [], paused := false }

/-- Claim C2, witness: begin called while a quiz is already running
returns the wrong-phase error and leaves everything unchanged. -/
theorem claim2_witness :
    Game.begin c2quizGame (some []) =
      { game := c2quizGame, sent := [], res := Except.error GameError.wrongPhase } :=
  (claim2_begin c2quizGame (some [])).1 ⟨Quiz.new ⟨[]⟩, rfl⟩

/-! ### Claim C5 -/

/-- Claim C5: guess by a player on no team fails with the not-on-team
error, and guess by a player on a team while not in the Quiz phase fails
with the wrong-phase error; in both cases the game (phase, teams, and
thus every score) is returned unchanged and nothing is sent. -/
theorem claim5_guess (g : Game) (player : Nat) (text : String) :
    (g.get_player_team player = none →
      Game.guess g player text =
        { game := g, sent := [], res := Except.error GameError.notOnTeam }) ∧
    ((g.get_player_team player).isSome = true → g.current_phase.isQuiz = false →
      Game.guess g player text =
        { game := g, sent := [], res := Except.error GameError.wrongPhase }) := by
  constructor
  · intro h
    simp [Game.guess, h]
  · intro h1 h2
    obtain ⟨tid, htid⟩ := Option.isSome_iff_exists.mp h1
    cases hph : g.current_phase with
    | Startup => simp [Game.guess, htid, hph]
    | Setup => simp [Game.guess, htid, hph]
    | Quiz q => rw [hph] at h2; simp [Phase.isQuiz] at h2

/-- Setup-phase game with a single team red = {player 1}. -/
def c5setupRed : Game :=
  { current_phase := Phase.Setup
    teams := [{ id := "red", score := 0, players := {1} }]
    paused := false }

/-- Claim C5, witness: player 1 is on a team but the game is in Setup,
so the guess fails with the wrong-phase error and changes nothing. -/
theorem claim5_witness :
    Game.guess c5setupRed 1 "hello" =
      { game := c5setupRed, sent := [], res := Except.error GameError.wrongPhase } :=
  (claim5_guess c5setupRed 1 "hello").2 (by decide) (by decide)

/-! ### Claim C6 -/

/-- Claim C6: adjusting the score of a nonexistent team fails with the
not-found error and returns the game unchanged with nothing sent; when a
team with the id exists, the first such team gets delta added to its
score, every other team is untouched, and exactly one broadcast carrying
the team display name and the new score is sent. -/
theorem claim6_adjust_score (g : Game) (team_id : String) (delta : Int) :
    ((∀ t ∈ g.teams, t.id ≠ team_id) →
      Game.adjust_score g team_id delta =
        { game := g, sent := [], res := Except.error GameError.notFound }) ∧
    (∀ t, g.teams.find? (fun u => u.id == team_id) = some t →
      ∃ pre post,
        g.teams = pre ++ t :: post ∧
        (∀ v ∈ pre, v.id ≠ team_id) ∧
        Game.adjust_score g team_id delta =
          { game := { g with teams := pre ++ { t with score := t.score + delta } :: post }
            sent := [OutMsg.scoreUpdated t.get_display_name (t.score + delta)]
            res := Except.ok () }) := by
  constructor
  · intro h
    have hf : g.teams.find? (fun u => u.id == team_id) = none := by
      rw [List.find?_eq_none]
      intro t ht
      simp [h t ht]
    simp [Game.adjust_score, hf]
  · intro t hf
    obtain ⟨pre, post, hdec, hpre, ht⟩ :=
      find?_first_decomp (fun u => u.id == team_id) g.teams t hf
    refine ⟨pre, post, hdec, ?_, ?_⟩
    · intro v hv
      have := hpre v hv
      simpa using this
    · simp only [Game.adjust_score, hf]
      rw [hdec, updateFirst_append _ _ pre t post hpre ht]

/-- The single team of `c5setupRed`. -/
def redTeam : Team :=
  { id := "red", score := 0, players := {1} }

/-- Claim C6, witness: adjusting red by 5 in the one-team game bumps the
score and broadcasts the display name with the new value. -/
theorem claim6_witness :
    ∃ pre post,
      c5setupRed.teams = pre ++ redTeam :: post ∧
      (∀ v ∈ pre, v.id ≠ "red") ∧
      Game.adjust_score c5setupRed "red" 5 =
        { game := { c5setupRed with teams := pre ++ { redTeam with score := redTeam.score + 5 } :: post }
          sent := [OutMsg.scoreUpdated redTeam.get_display_name (redTeam.score + 5)]
          res := Except.ok () } :=
  (claim6_adjust_score c5setupRed "red" 5).2 redTeam (by decide)

/-! ### Claim C4 -/

/-- Claim C4, violation exhibited: join_team with a name that fails
sanitization first removes the player from their team, then returns the
invalid-name error before the empty-team pruning runs, so an empty team
stays observable through get_teams, violating the claimed invariant. -/
theorem claim4_invariant_violation :
    (Game.join_team c5setupRed 1 "  ").res = Except.error GameError.invalidName ∧
    (Game.join_team c5setupRed 1 "  ").game.get_teams =
      [{ id := "red", score := 0, players := (∅ : Finset Nat) }] ∧
    ¬ (∀ t ∈ (Game.join_team c5setupRed 1 "  ").game.get_teams,
        t.players ≠ ∅) := by decide

/-! ### Claims C3 and C9: the join_team pipeline -/

/-- The successful path of join_team as one function of the registry:
erase the player everywhere, find-or-create the target team and insert,
prune empty teams. -/
def joinStep (teams : List Team) (team_id : String) (player : Nat) : List Team :=
  (addPlayerToTeam
      (teams.map (fun t => { t with players := t.players.erase player }))
      team_id player).filter
    (fun t => decide (t.players ≠ ∅))

/-- Shape of a registry just after a successful join of player `p` to
the team with sanitized name `s`: no empty team, and the registry splits
at the unique team holding `p`, which is the first team named `s`. -/
def GoodJoin (s : String) (p : Nat) (l : List Team) : Prop :=
  (∀ t ∈ l, t.players ≠ ∅) ∧
  ∃ pre mid post,
    l = pre ++ mid :: post ∧
    mid.id = s ∧ p ∈ mid.players ∧
    (∀ v ∈ pre, v.id ≠ s ∧ p ∉ v.players) ∧
    (∀ v ∈ post, p ∉ v.players)

/-- Keeping a list whose elements all pass the filter. -/
lemma filter_true_id (pred : Team → Bool) (l : List Team)
    (h : ∀ v ∈ l, pred v = true) : l.filter pred = l := by
  induction l with
  | nil => rfl
  | cons a as ih =>
    rw [List.filter_cons, if_pos (h a (by simp)),
      ih (fun v hv => h v (by simp [hv]))]

/-- A successful join_team call sends nothing, keeps the phase and the
paused flag, and rewrites the registry by `joinStep` at the sanitized
name. -/
lemma join_team_ok (g : Game) (p : Nat) (n : String) (g1 : Game)
    (sent : List OutMsg)
    (h : Game.join_team g p n = { game := g1, sent := sent, res := Except.ok () }) :
    ∃ s, sanitize_name n = some s ∧ sent = [] ∧
      g1.current_phase = g.current_phase ∧ g1.paused = g.paused ∧
      g1.teams = joinStep g.teams s p := by
  by_cases hguard : ((g.get_player_team p).isSome && !g.current_phase.isSetup) = true
  · exfalso
    simp [Game.join_team, hguard] at h
  · rw [Bool.not_eq_true] at hguard
    cases hsn : sanitize_name n with
    | none =>
      exfalso
      simp [Game.join_team, hguard, hsn] at h
    | some s =>
      simp only [Game.join_team, hguard, hsn, Bool.false_eq_true, if_false,
        OpResult.mk.injEq, and_true] at h
      obtain ⟨hgame, hsent⟩ := h
      refine ⟨s, rfl, hsent.symm, ?_, ?_, ?_⟩
      · rw [← hgame]
      · rw [← hgame]
      · rw [← hgame]
        simp [joinStep]

/-- The registry produced by `joinStep` always has the `GoodJoin`
shape. -/
lemma joinStep_good (l : List Team) (s : String) (p : Nat) :
    GoodJoin s p (joinStep l s p) := by
  unfold joinStep addPlayerToTeam
  set l' := l.map (fun t => { t with players := t.players.erase p }) with hl'
  have hl'p : ∀ t ∈ l', p ∉ t.players := by
    intro t ht
    rw [hl'] at ht
    obtain ⟨u, hu, rfl⟩ := List.mem_map.mp ht
    exact Finset.not_mem_erase p u.players
  by_cases ha : l'.any (fun t => t.id == s) = true
  · rw [if_pos ha]
    obtain ⟨pre, u, post, hdec, hpre, hu⟩ :=
      any_first_decomp (fun t => t.id == s) l' ha
    have huid : u.id = s := by simpa using hu
    have hpre' : ∀ v ∈ pre, v ∈ l' := by
      intro v hv
      rw [hdec]
      exact List.mem_append.mpr (Or.inl hv)
    have hpost' : ∀ v ∈ post, v ∈ l' := by
      intro v hv
      rw [hdec]
      exact List.mem_append.mpr (Or.inr (by simp [hv]))
    rw [hdec, updateFirst_append _ _ pre u post hpre hu,
      List.filter_append, List.filter_cons, if_pos (by simp)]
    refine ⟨?_, pre.filter _, { u with players := insert p u.players },
      post.filter _, rfl, huid, Finset.mem_insert_self p u.players, ?_, ?_⟩
    · intro t ht
      rcases List.mem_append.mp ht with h | h
      · exact of_decide_eq_true (List.mem_filter.mp h).2
      · rcases List.mem_cons.mp h with rfl | h
        · simp
        · exact of_decide_eq_true (List.mem_filter.mp h).2
    · intro v hv
      have hvp : v ∈ pre := (List.mem_filter.mp hv).1
      refine ⟨?_, hl'p v (hpre' v hvp)⟩
      have := hpre v hvp
      intro heq
      rw [heq] at this
      simp at this
    · intro v hv
      exact hl'p v (hpost' v (List.mem_filter.mp hv).1)
  · rw [if_neg ha]
    have ha' : ∀ v ∈ l', ¬ ((fun t => t.id == s) v = true) := by
      intro v hv hvs
      exact ha (List.any_eq_true.mpr ⟨v, hv, hvs⟩)
    set nt : Team := { Team.new s with players := insert p (Team.new s).players }
      with hnt
    have hntKeep : (fun t => decide (t.players ≠ ∅)) nt = true := by
      simp [hnt, Team.new]
    have hfilter :
        (l' ++ [nt]).filter (fun t => decide (t.players ≠ ∅)) =
          l'.filter (fun t => decide (t.players ≠ ∅)) ++ [nt] := by
      rw [List.filter_append, List.filter_cons, if_pos hntKeep, List.filter_nil]
    rw [hfilter]
    refine ⟨?_, l'.filter (fun t => decide (t.players ≠ ∅)), nt, [], rfl, ?_, ?_, ?_,
      by simp⟩
    · intro t ht
      rcases List.mem_append.mp ht with h | h
      · exact of_decide_eq_true (List.mem_filter.mp h).2
      · rcases List.mem_cons.mp h with rfl | h
        · simp [hnt, Team.new]
        · simp at h
    · simp [hnt, Team.new]
    · simp [hnt, Team.new]
    · intro v hv
      have hvl : v ∈ l' := (List.mem_filter.mp hv).1
      refine ⟨?_, hl'p v hvl⟩
      intro heq
      exact ha' v hvl (by simp [heq])

/-- A registry already in the `GoodJoin` shape is a fixed point of
`joinStep`: erasing and reinserting the player and re-pruning changes
nothing. -/
lemma joinStep_of_good (s : String) (p : Nat) (l : List Team)
    (h : GoodJoin s p l) : joinStep l s p = l := by
  obtain ⟨hne, pre, mid, post, rfl, hmid, hpmem, hpre, hpost⟩ := h
  unfold joinStep addPlayerToTeam
  have hmapPre : pre.map (fun t => { t with players := t.players.erase p }) = pre :=
    map_erase_id p pre (fun v hv => (hpre v hv).2)
  have hmapPost : post.map (fun t => { t with players := t.players.erase p }) = post :=
    map_erase_id p post hpost
  rw [List.map_append, List.map_cons, hmapPre, hmapPost]
  have hany :
      (pre ++ { mid with players := mid.players.erase p } :: post).any
        (fun t => t.id == s) = true := by
    refine List.any_eq_true.mpr ⟨{ mid with players := mid.players.erase p }, by simp, ?_⟩
    simp [hmid]
  rw [if_pos hany]
  have hpreF : ∀ v ∈ pre, ((fun t => t.id == s) v) = false := by
    intro v hv
    have := (hpre v hv).1
    simpa using this
  rw [updateFirst_append _ _ pre _ post hpreF (by simp [hmid])]
  simp only [Finset.insert_erase hpmem]
  refine filter_true_id _ _ ?_
  intro v hv
  simpa using hne v hv

/-- Claim C3: after successfully joining team n1 and then team n2 (with
distinct sanitized names), the player is on the team named by n2's
sanitized form, on no other team, and no empty team — in particular not
the vacated n1 team — appears in get_teams. -/
theorem claim3_switch_team (g g1 g2 : Game) (p : Nat) (n1 n2 s1 s2 : String)
    (hs1 : sanitize_name n1 = some s1) (hs2 : sanitize_name n2 = some s2)
    (hne : s1 ≠ s2)
    (hj1 : Game.join_team g p n1 = { game := g1, sent := [], res := Except.ok () })
    (hj2 : Game.join_team g1 p n2 = { game := g2, sent := [], res := Except.ok () }) :
    (∃ t ∈ g2.get_teams, t.id = s2 ∧ p ∈ t.players) ∧
    (∀ t ∈ g2.get_teams, p ∈ t.players → t.id = s2) ∧
    (∀ t ∈ g2.get_teams, t.players ≠ ∅) := by
  obtain ⟨s, hs, -, -, -, hteams⟩ := join_team_ok g1 p n2 g2 [] hj2
  rw [hs2] at hs
  have hss : s2 = s := by injection hs
  subst hss
  have hgood : GoodJoin s2 p g2.teams := by
    rw [hteams]
    exact joinStep_good g1.teams s2 p
  obtain ⟨hne', pre, mid, post, hdec, hid, hmem, hpre, hpost⟩ := hgood
  refine ⟨⟨mid, ?_, hid, hmem⟩, ?_, hne'⟩
  · show mid ∈ g2.teams
    rw [hdec]
    simp
  · intro t ht hp
    have ht' : t ∈ g2.teams := ht
    rw [hdec] at ht'
    rcases List.mem_append.mp ht' with h | h
    · exact absurd hp (hpre t h).2
    · rcases List.mem_cons.mp h with rfl | h
      · exact hid
      · exact absurd hp (hpost t h)

/-- Game reached by joining player 1 to Blue from `c5setupRed`. -/
def c3blue : Game :=
  { current_phase := Phase.Setup
    teams := [{ id := "blue", score := 0, players := {1} }]
    paused := false }

/-- Claim C3, witness: the two joins Red then Blue from the fresh game,
evaluated concretely. -/
theorem claim3_witness :
    (∃ t ∈ c3blue.get_teams, t.id = "blue" ∧ 1 ∈ t.players) ∧
    (∀ t ∈ c3blue.get_teams, 1 ∈ t.players → t.id = "blue") ∧
    (∀ t ∈ c3blue.get_teams, t.players ≠ ∅) :=
  claim3_switch_team (Game.new []) c5setupRed c3blue 1 "Red" "Blue" "red" "blue"
    (by decide) (by decide) (by decide) (by decide) (by decide)

/-- Claim C9: a second join of the same player to the same team name, in
the Setup phase where it is unconditionally legal, succeeds and returns
the registry — team set, memberships and scores — exactly as the first
successful join left it. -/
theorem claim9_join_idempotent (g g1 : Game) (p : Nat) (n : String)
    (hj : Game.join_team g p n = { game := g1, sent := [], res := Except.ok () })
    (hsetup : g1.current_phase = Phase.Setup) :
    Game.join_team g1 p n = { game := g1, sent := [], res := Except.ok () } := by
  obtain ⟨s, hs, -, -, -, hteams⟩ := join_team_ok g p n g1 [] hj
  have hgood : GoodJoin s p g1.teams := by
    rw [hteams]
    exact joinStep_good g.teams s p
  have hfix : joinStep g1.teams s p = g1.teams := joinStep_of_good s p g1.teams hgood
  unfold joinStep at hfix
  unfold Game.join_team
  rw [hsetup]
  simp only [Phase.isSetup, Bool.not_true, Bool.and_false, Bool.false_eq_true,
    if_false, hs, hfix]
  rw [← hsetup]

/-- Claim C9, witness: rejoining Red in the one-team game is a no-op on
the registry. -/
theorem claim9_witness :
    Game.join_team c5setupRed 1 "Red" =
      { game := c5setupRed, sent := [], res := Except.ok () } :=
  claim9_join_idempotent (Game.new []) c5setupRed 1 "Red" (by decide) rfl

end Level99
